import Mathlib

/-!
Verification of the token-monitoring core of `ogp.py` against its design
specification.  The Python source is shallowly embedded: each relevant
function becomes a Lean definition over explicit inputs (network attempt
outcomes, observed payloads, cooperative-cancellation points), and the
spec's claims are settled as theorems about those definitions.
-/

set_option maxRecDepth 4000

/-! ## Constants (ogp.py lines 23-26) -/

def REQUEST_TIMEOUT : Nat := 30

def MAX_RETRIES : Nat := 3

def RETRY_DELAY : Nat := 5

def MONITOR_INTERVAL : Nat := 300

/-! ## Remote client: `get_position` / `ping_server` (lines 191-215)

Each loop iteration `for attempt in range(MAX_RETRIES)` performs one HTTP
attempt whose outcome is one of: a 200 response with a decoded JSON payload
(`ok`), a non-success HTTP status (`httpError`: the `if response.status == 200`
guard fails and the loop falls through to the next attempt), or a raised
exception (`exn`: transport error, timeout, or JSON decode failure, caught by
`except Exception`).  The embedding takes the would-be outcome of every
iteration as an input list whose length is the attempt limit; the
`restOutcomes.isEmpty` test is exactly the Python `attempt < MAX_RETRIES - 1`
test deciding whether `asyncio.sleep(RETRY_DELAY)` runs after a caught
exception.  Note the sleep sits only in the `except` branch: a non-success
status proceeds to the next attempt with no delay. -/

/-- Payload of a decoded `ping` response; `status` models `dict.get("status")`. -/
structure PingPayload where
  status : Option String
deriving DecidableEq, Repr

/-- Payload of a decoded `position` response; `behind` models `dict.get("behind")`. -/
structure PosPayload where
  behind : Option Int
deriving DecidableEq, Repr

/-- Outcome of one HTTP attempt inside the retry loop. -/
inductive AttemptOutcome (α : Type) where
  | ok (payload : α)
  | httpError
  | exn
deriving DecidableEq, Repr

/-- `isOk o` holds when the attempt returned a 200 response with a decoded payload. -/
def isOk {α : Type} : AttemptOutcome α → Bool
  | AttemptOutcome.ok _ => true
  | _ => false

/-- Number of attempts in a list that raised an exception. -/
def countExn {α : Type} : List (AttemptOutcome α) → Nat
  | [] => 0
  | AttemptOutcome.exn :: rest => countExn rest + 1
  | _ :: rest => countExn rest

/-- Result of a whole retry loop: the returned value (`none` = the trailing
`return None`), the number of attempts performed, and the number of
`asyncio.sleep(RETRY_DELAY)` pauses executed. -/
structure PollResult (α : Type) where
  result : Option α
  attempts : Nat
  sleeps : Nat
deriving DecidableEq, Repr

/-- The retry loop shared by `get_position` and `ping_server` (lines 193-202 and
206-215): return the payload on the first 200 response; on a non-success status
continue immediately; on an exception sleep `RETRY_DELAY` unless this was the
final attempt (`restOutcomes.isEmpty` ⟺ `attempt = MAX_RETRIES - 1`), then
continue; after the last attempt return `None`. -/
def pollGo {α : Type} : List (AttemptOutcome α) → Nat → Nat → PollResult α
  | [], attempts, sleeps => ⟨none, attempts, sleeps⟩
  | AttemptOutcome.ok p :: _, attempts, sleeps => ⟨some p, attempts + 1, sleeps⟩
  | AttemptOutcome.httpError :: restOutcomes, attempts, sleeps =>
      pollGo restOutcomes (attempts + 1) sleeps
  | AttemptOutcome.exn :: restOutcomes, attempts, sleeps =>
      pollGo restOutcomes (attempts + 1) (if restOutcomes.isEmpty then sleeps else sleeps + 1)

/-- `get_position` (lines 191-202), applied to the outcomes its attempts would see. -/
def get_position (outcomes : List (AttemptOutcome PosPayload)) : PollResult PosPayload :=
  pollGo outcomes 0 0

/-- `ping_server` (lines 204-215), applied to the outcomes its attempts would see. -/
def ping_server (outcomes : List (AttemptOutcome PingPayload)) : PollResult PingPayload :=
  pollGo outcomes 0 0

/-! ## Status tuples and the diff step (lines 246-253) -/

/-- The status dict built each cycle:
`{"ping": ping.get("status") if ping else "down", "position": pos.get("behind") if pos else None}`. -/
structure Status where
  ping : Option String
  position : Option Int
deriving DecidableEq, Repr

/-- The two poll results a cycle observes for one token
(`current_ping` / `current_pos`, each `None` when retries were exhausted). -/
structure TokenObs where
  ping : Option PingPayload
  pos : Option PosPayload
deriving DecidableEq, Repr

/-- Lines 246-249: combine the two poll results into the status dict. -/
def mkStatus (o : TokenObs) : Status :=
  { ping := match o.ping with
            | some p => p.status
            | none => some "down"
    position := match o.pos with
                | some p => p.behind
                | none => none }

/-- Lines 251-253 for one token: compare the new status against the stored
snapshot (`prev_status.get(token) != status`); on a difference record a
notification and store the new status, otherwise leave the snapshot alone. -/
def diffStep (prev : Option Status) (st : Status) : Option Status × Bool :=
  if prev ≠ some st then (some st, true) else (prev, false)

/-- The per-token notification flags produced by running the diff step over a
sequence of observed statuses, starting from an empty snapshot. -/
def notifySeq : Option Status → List Status → List Bool
  | _, [] => []
  | prev, st :: rest => (diffStep prev st).2 :: notifySeq (diffStep prev st).1 rest

/-! ## Message formatting: `format_status` (lines 266-273) -/

/-- Exceptions the worker body can raise; `attributeError` is
`None.capitalize()` when a ping payload lacks a `"status"` field. -/
inductive PyExc where
  | attributeError
deriving DecidableEq, Repr

/-- Python `str.capitalize()`: first character upper-cased, the rest lower-cased. -/
def pyCapitalize (s : String) : String :=
  match s.data with
  | [] => ""
  | c :: cs => String.mk (c.toUpper :: cs.map Char.toLower)

/-- Line 268: `f"...{token[-6:]}" if len(token) > 6 else token`. -/
def shortToken (token : String) : String :=
  if token.length > 6 then "..." ++ token.drop (token.length - 6) else token

/-- Line 272: `{status['position'] or 'Unknown'}` — Python `or` falls through to
`'Unknown'` when the position is `None` or the (falsy) integer `0`. -/
def positionDisplay (pos : Option Int) : String :=
  match pos with
  | some n => if n ≠ 0 then toString n else "Unknown"
  | none => "Unknown"

/-- `format_status` (lines 266-273).  `status['ping'].capitalize()` raises
`AttributeError` when the ping field is `None`, which escapes to the worker's
outer exception handler; otherwise the exact message text is produced. -/
def format_status (token : String) (st : Status) : Except PyExc String :=
  match st.ping with
  | none => Except.error PyExc.attributeError
  | some p =>
      Except.ok ("• " ++ shortToken token ++ ":\n  Status: " ++ pyCapitalize p
        ++ "\n  Position: " ++ positionDisplay st.position)

/-! ## The monitoring worker: `monitor_tokens` (lines 235-264)

One cycle of the `while True` loop (lines 240-258): for every token in the
owner's current list, poll both endpoints, build the status dict, run the diff
step, and on a change format a line and store the snapshot; after the token
loop, send one combined message if any line was produced, then sleep.  A cycle
is embedded as the list of `(token, observation)` pairs the loop would
traverse.  An exception escaping the loop body (only `format_status` can raise
in the model) aborts the cycle, is caught by `except Exception` (line 262),
emits the single crash message and terminates the worker; `except
asyncio.CancelledError` (line 260) only logs and terminates cleanly.
Cancellation is cooperative: `Task.cancel()` makes `CancelledError` rise at the
worker's next suspension point, so it is embedded as the index of the cycle at
whose first suspension point the error is delivered. -/

/-- A message the worker passes to `bot.send_message`. -/
inductive SentMsg where
  | statusUpdate (updates : List String)
  | crashNotice
deriving DecidableEq, Repr

/-- The exact text handed to `bot.send_message` (lines 256 and 264). -/
def renderMsg : SentMsg → String
  | SentMsg.statusUpdate us => "🔄 Status Update:\n" ++ String.intercalate "\n" us
  | SentMsg.crashNotice => "❌ Monitoring suspended due to errors"

/-- How the worker terminated within the modelled window:
still looping (`running`), clean cancellation, or a fatal exception. -/
inductive ExitStatus where
  | running
  | cancelled
  | crashed
deriving DecidableEq, Repr

/-- The token loop of one cycle (lines 242-253): threads the `prev_status`
snapshot map and collects the `updates` lines in token order, or reports the
exception that escaped the loop body. -/
def processTokens :
    (String → Option Status) → List (String × TokenObs) →
    Except PyExc ((String → Option Status) × List String)
  | prev, [] => Except.ok (prev, [])
  | prev, (tok, o) :: rest =>
      if prev tok ≠ some (mkStatus o) then
        match format_status tok (mkStatus o) with
        | Except.error e => Except.error e
        | Except.ok msg =>
            match processTokens (fun t => if t = tok then some (mkStatus o) else prev t) rest with
            | Except.error e => Except.error e
            | Except.ok (p, msgs) => Except.ok (p, msg :: msgs)
      else processTokens prev rest

/-- Line 255-256: `if updates: await bot.send_message(...)`. -/
def updatesCons (updates : List String) (msgs : List SentMsg) : List SentMsg :=
  if updates.isEmpty then msgs else SentMsg.statusUpdate updates :: msgs

/-- A pending cancellation comes one cycle closer each iteration. -/
def decCancel : Option Nat → Option Nat
  | none => none
  | some n => some (n - 1)

/-- The worker loop over a modelled window of cycles.  `cancelAt = some k`
means `CancelledError` is delivered at the first suspension point of the k-th
remaining cycle (before any of its polls).  Returns every message sent to the
owner, in order, together with how the window ended. -/
def monitor_tokens_run :
    Option Nat → (String → Option Status) → List (List (String × TokenObs)) →
    List SentMsg × ExitStatus
  | _, _, [] => ([], ExitStatus.running)
  | cancelAt, prev, cyc :: rest =>
      if cancelAt = some 0 then ([], ExitStatus.cancelled)
      else
        match processTokens prev cyc with
        | Except.error _ => ([SentMsg.crashNotice], ExitStatus.crashed)
        | Except.ok (p, updates) =>
            (updatesCons updates (monitor_tokens_run (decCancel cancelAt) p rest).1,
             (monitor_tokens_run (decCancel cancelAt) p rest).2)

/-- Occurrences of the crash notice among the sent messages. -/
def crashCount : List SentMsg → Nat
  | [] => 0
  | SentMsg.crashNotice :: rest => crashCount rest + 1
  | _ :: rest => crashCount rest

/-- Last message sent within the window, if any. -/
def lastMsg? : List SentMsg → Option SentMsg
  | [] => none
  | [m] => some m
  | _ :: m :: rest => lastMsg? (m :: rest)

/-! ## The supervisor: `start_monitoring` / `stop_monitoring` (lines 217-233)

`monitoring_tasks` is a per-owner map from user id to the `asyncio.Task`
running `monitor_tokens`; `user_tokens` is the per-owner token list.  A task
handle carries whether `cancel()` has been requested on it and whether the
coroutine has actually finished (`Task.done()`).  `stop_monitoring` contains no
`await`, so calling `cancel()` only requests cancellation: the worker coroutine
is still unfinished when the map entry is deleted. -/

/-- Owners are opaque numeric Telegram user ids. -/
abbrev Owner := Nat

/-- An `asyncio.Task` handle for a worker. -/
structure TaskState where
  cancelled : Bool
  finished : Bool
deriving DecidableEq, Repr

/-- `Task.done()`. -/
def task_done (t : TaskState) : Bool := t.finished

/-- The task `asyncio.create_task(monitor_tokens(...))` returns: running, not cancelled. -/
def freshTask : TaskState := { cancelled := false, finished := false }

/-- The two module-level dicts (lines 29-30). -/
structure BotState where
  user_tokens : Owner → List String
  monitoring_tasks : Owner → Option TaskState

/-- Result reported by `start_monitoring` (the edited message text). -/
inductive StartResult where
  | started
  | alreadyRunning
deriving DecidableEq, Repr

/-- Result reported by `stop_monitoring`. -/
inductive StopResult where
  | stopped
  | notRunning
deriving DecidableEq, Repr

/-- `start_monitoring` (lines 217-224): if the owner has a task that is not
done, report that monitoring is already running and do nothing; otherwise
store a fresh task for the owner (overwriting a finished one, if present). -/
def start_monitoring (s : BotState) (owner : Owner) : BotState × StartResult :=
  if (s.monitoring_tasks owner).any (fun t => !(task_done t)) then
    (s, StartResult.alreadyRunning)
  else
    ({ s with monitoring_tasks := fun o => if o = owner then some freshTask
                                           else s.monitoring_tasks o },
     StartResult.started)

/-- `stop_monitoring` (lines 226-233): if the owner has a task entry — done or
not — call `cancel()` on it and delete the entry, reporting `stopped`;
otherwise report `notRunning`.  The third component is the task object at the
moment its map entry is deleted (no `await` intervenes, so its `finished` flag
is whatever it was before the call). -/
def stop_monitoring (s : BotState) (owner : Owner) : BotState × StopResult × Option TaskState :=
  match s.monitoring_tasks owner with
  | some t =>
      ({ s with monitoring_tasks := fun o => if o = owner then none
                                             else s.monitoring_tasks o },
       StopResult.stopped, some { t with cancelled := true })
  | none => (s, StopResult.notRunning, none)

/-! ## Token removal: the `remove_` branch of `handle_token_actions` (lines 131-137) -/

/-- Lines 131-137: `if 0 <= index < len(tokens): removed = tokens.pop(index)`,
reporting the removed token; otherwise report an invalid selection (`none`)
and leave the list untouched. -/
def handle_token_actions_remove (tokens : List String) (index : Int) :
    List String × Option String :=
  if 0 ≤ index ∧ index < (tokens.length : Int) then
    (tokens.eraseIdx index.toNat, tokens.get? index.toNat)
  else (tokens, none)

/-! ## Helper lemmas -/

/-- A retry loop all of whose attempts fail runs through every attempt,
returns `none`, and sleeps exactly once per exception-failure that is not in
final position. -/
theorem pollGo_allFail {α : Type} :
    ∀ (l : List (AttemptOutcome α)) (a s : Nat), (∀ o ∈ l, isOk o = false) →
      pollGo l a s = ⟨none, a + l.length, s + countExn l.dropLast⟩ := by
  intro l
  induction l with
  | nil => intro a s _; simp [pollGo, countExn]
  | cons o rest ih =>
    intro a s hfail
    have ho : isOk o = false := hfail o (List.mem_cons_self o rest)
    have hrest : ∀ o ∈ rest, isOk o = false := fun o ho => hfail o (List.mem_cons_of_mem _ ho)
    cases o with
    | ok p => simp [isOk] at ho
    | httpError =>
      cases rest with
      | nil => simp [pollGo, countExn]
      | cons r rs =>
        rw [show pollGo (AttemptOutcome.httpError :: r :: rs) a s = pollGo (r :: rs) (a + 1) s
              from rfl,
            ih (a + 1) s hrest]
        simp [List.dropLast, countExn, PollResult.mk.injEq]
        omega
    | exn =>
      cases rest with
      | nil => simp [pollGo, countExn, List.isEmpty]
      | cons r rs =>
        rw [show pollGo (AttemptOutcome.exn :: r :: rs) a s
              = pollGo (r :: rs) (a + 1) (if (r :: rs).isEmpty then s else s + 1) from rfl]
        simp only [List.isEmpty, if_neg (by simp : ¬(false = true))]
        rw [ih (a + 1) (s + 1) hrest]
        simp [List.dropLast, countExn, PollResult.mk.injEq]
        omega

/-- A retry loop whose first success comes after a block of failures performs
one attempt per failure plus the successful one, returns that payload without
looking at later attempts, and sleeps exactly once per exception-failure in
the block. -/
theorem pollGo_stopsAtSuccess {α : Type} :
    ∀ (pre : List (AttemptOutcome α)) (p : α) (rest : List (AttemptOutcome α)) (a s : Nat),
      (∀ o ∈ pre, isOk o = false) →
      pollGo (pre ++ AttemptOutcome.ok p :: rest) a s
        = ⟨some p, a + pre.length + 1, s + countExn pre⟩ := by
  intro pre
  induction pre with
  | nil => intro p rest a s _; simp [pollGo, countExn]
  | cons o pre' ih =>
    intro p rest a s hfail
    have ho : isOk o = false := hfail o (List.mem_cons_self o pre')
    have hpre' : ∀ o ∈ pre', isOk o = false := fun o ho => hfail o (List.mem_cons_of_mem _ ho)
    cases o with
    | ok q => simp [isOk] at ho
    | httpError =>
      rw [show pollGo ((AttemptOutcome.httpError :: pre') ++ AttemptOutcome.ok p :: rest) a s
            = pollGo (pre' ++ AttemptOutcome.ok p :: rest) (a + 1) s from rfl,
          ih p rest (a + 1) s hpre']
      simp [countExn, PollResult.mk.injEq]
      omega
    | exn =>
      have hne : (pre' ++ AttemptOutcome.ok p :: rest).isEmpty = false := by
        cases pre' <;> rfl
      rw [show pollGo ((AttemptOutcome.exn :: pre') ++ AttemptOutcome.ok p :: rest) a s
            = pollGo (pre' ++ AttemptOutcome.ok p :: rest) (a + 1)
                (if (pre' ++ AttemptOutcome.ok p :: rest).isEmpty then s else s + 1) from rfl,
          hne]
      rw [if_neg (by simp), ih p rest (a + 1) (s + 1) hpre']
      simp [countExn, PollResult.mk.injEq]
      omega

/-! ## Claims -/

/-- C4: for every token and every endpoint (ping, position), if every attempt
fails (transport error or non-success HTTP status), the remote poll performs
exactly `MAX_RETRIES` attempts and no more, then returns the unavailable
result `None`; all failure modes are absorbed inside the loop (the embedding
returns a total `PollResult`, never an exception). -/
theorem remote_poll_unavailable_after_max
    (oPos : List (AttemptOutcome PosPayload)) (oPing : List (AttemptOutcome PingPayload))
    (hPos : ∀ o ∈ oPos, isOk o = false) (hPing : ∀ o ∈ oPing, isOk o = false)
    (hlPos : oPos.length = MAX_RETRIES) (hlPing : oPing.length = MAX_RETRIES) :
    ((get_position oPos).result = none ∧ (get_position oPos).attempts = MAX_RETRIES)
    ∧ ((ping_server oPing).result = none ∧ (ping_server oPing).attempts = MAX_RETRIES) := by
  rw [show get_position oPos = pollGo oPos 0 0 from rfl,
      show ping_server oPing = pollGo oPing 0 0 from rfl,
      pollGo_allFail oPos 0 0 hPos, pollGo_allFail oPing 0 0 hPing]
  simp [hlPos, hlPing]

/-- C4 witness: three failed attempts against each endpoint exhaust the
configured limit of 3 and return the unavailable result. -/
theorem remote_poll_unavailable_after_max_witness :
    ((get_position [AttemptOutcome.exn, AttemptOutcome.httpError, AttemptOutcome.exn]).result
        = none
      ∧ (get_position [AttemptOutcome.exn, AttemptOutcome.httpError, AttemptOutcome.exn]).attempts
        = MAX_RETRIES)
    ∧ ((ping_server [AttemptOutcome.httpError, AttemptOutcome.exn, AttemptOutcome.httpError]).result
        = none
      ∧ (ping_server
          [AttemptOutcome.httpError, AttemptOutcome.exn, AttemptOutcome.httpError]).attempts
        = MAX_RETRIES) :=
  remote_poll_unavailable_after_max _ _
    (by intro o ho; fin_cases ho <;> rfl)
    (by intro o ho; fin_cases ho <;> rfl)
    (by rfl) (by rfl)

/-- C5 counterexample: three consecutive non-success HTTP statuses are all
retried, yet the loop performs zero `RETRY_DELAY` pauses — the claimed pause
between consecutive attempts exists only for transport-error failures, never
for non-success HTTP statuses (the `asyncio.sleep` sits inside the `except`
branch, which a non-200 status does not enter). -/
theorem http_status_failures_sleep_zero :
    get_position [AttemptOutcome.httpError, AttemptOutcome.httpError, AttemptOutcome.httpError]
      = { result := none, attempts := 3, sleeps := 0 }
    ∧ MAX_RETRIES = 3 ∧ RETRY_DELAY = 5 := by
  refine ⟨rfl, rfl, rfl⟩

/-- C5 (amended): a failed attempt that is not the last is retried whether it
failed by transport error or by non-success HTTP status, but the fixed
`RETRY_DELAY` pause is inserted only after transport-error (exception)
failures — a non-success HTTP status moves to the next attempt immediately —
and after a success the loop returns at once, performing no further attempts
and no further pauses. -/
theorem retry_and_delay_behavior
    (pre : List (AttemptOutcome PosPayload)) (p : PosPayload)
    (rest : List (AttemptOutcome PosPayload))
    (hpre : ∀ o ∈ pre, isOk o = false)
    (allOut : List (AttemptOutcome PosPayload)) (hall : ∀ o ∈ allOut, isOk o = false) :
    get_position (pre ++ AttemptOutcome.ok p :: rest)
      = ⟨some p, pre.length + 1, countExn pre⟩
    ∧ get_position allOut = ⟨none, allOut.length, countExn allOut.dropLast⟩ := by
  constructor
  · rw [show get_position (pre ++ AttemptOutcome.ok p :: rest)
          = pollGo (pre ++ AttemptOutcome.ok p :: rest) 0 0 from rfl,
        pollGo_stopsAtSuccess pre p rest 0 0 hpre]
    simp
  · rw [show get_position allOut = pollGo allOut 0 0 from rfl,
        pollGo_allFail allOut 0 0 hall]
    simp

/-- C5 amended witness: an exception then a non-success status then a success
gives three attempts, one pause (after the exception only), and the payload;
an all-failing run of one exception and two statuses sleeps exactly once. -/
theorem retry_and_delay_behavior_witness :
    get_position [AttemptOutcome.exn, AttemptOutcome.httpError, AttemptOutcome.ok ⟨some 7⟩]
      = ⟨some ⟨some 7⟩, 3, 1⟩
    ∧ get_position [AttemptOutcome.exn, AttemptOutcome.httpError, AttemptOutcome.httpError]
      = ⟨none, 3, 1⟩ := by
  have h := retry_and_delay_behavior
    [AttemptOutcome.exn, AttemptOutcome.httpError] (⟨some 7⟩ : PosPayload) []
    (by intro o ho; fin_cases ho <;> rfl)
    [AttemptOutcome.exn, AttemptOutcome.httpError, AttemptOutcome.httpError]
    (by intro o ho; fin_cases ho <;> rfl)
  exact ⟨h.1, h.2⟩

/-- C3: a notification line is recorded for a token exactly when the newly
observed status differs structurally from the stored snapshot — the first
observation (empty snapshot) always counts, and a difference in any single
field makes the tuples differ — so the observed sequence `[A, A, B, B, A]`
notifies exactly 3 times, at the first observation and the two transitions. -/
theorem notify_on_change (A B : Status) (h : A ≠ B) :
    notifySeq none [A, A, B, B, A] = [true, false, true, false, true]
    ∧ (notifySeq none [A, A, B, B, A]).count true = 3
    ∧ (∀ s₁ s₂ : Status, s₁ ≠ s₂ ↔ s₁.ping ≠ s₂.ping ∨ s₁.position ≠ s₂.position)
    ∧ (∀ (prevSnap : Option Status) (st : Status),
        (diffStep prevSnap st).2 = true ↔ prevSnap ≠ some st) := by
  have hflags : notifySeq none [A, A, B, B, A] = [true, false, true, false, true] := by
    simp [notifySeq, diffStep, h, Ne.symm h]
  refine ⟨hflags, by rw [hflags]; rfl, ?_, ?_⟩
  · intro s₁ s₂
    cases s₁ with
    | mk p₁ q₁ =>
      cases s₂ with
      | mk p₂ q₂ => simp [Status.mk.injEq]; tauto
  · intro prevSnap st
    unfold diffStep
    split <;> simp_all

/-- C3 witness: with `A = {ping up, position 5}` and `B = {ping down,
position 5}` (a single-field difference), the five observations notify at
positions 0, 2 and 4 only. -/
theorem notify_on_change_witness :
    notifySeq none
      [⟨some "up", some 5⟩, ⟨some "up", some 5⟩, ⟨some "down", some 5⟩,
       ⟨some "down", some 5⟩, ⟨some "up", some 5⟩]
      = [true, false, true, false, true] :=
  (notify_on_change ⟨some "up", some 5⟩ ⟨some "down", some 5⟩ (by decide)).1

/-- Tokens not traversed by the cycle loop keep their stored snapshot. -/
theorem processTokens_untouched :
    ∀ (l : List (String × TokenObs)) (prev p : String → Option Status) (msgs : List String),
      processTokens prev l = Except.ok (p, msgs) →
      ∀ t, t ∉ l.map Prod.fst → p t = prev t := by
  intro l
  induction l with
  | nil =>
    intro prev p msgs h t _
    simp only [processTokens, Except.ok.injEq, Prod.mk.injEq] at h
    rw [← h.1]
  | cons hd rest ih =>
    rcases hd with ⟨tok, o⟩
    intro prev p msgs h t ht
    simp only [List.map, List.mem_cons, not_or] at ht
    simp only [processTokens] at h
    split at h
    · cases hf : format_status tok (mkStatus o) with
      | error e => rw [hf] at h; exact absurd h (by simp)
      | ok msg =>
        rw [hf] at h
        cases hr : processTokens (fun t => if t = tok then some (mkStatus o) else prev t) rest with
        | error e => rw [hr] at h; exact absurd h (by simp)
        | ok pr =>
          rcases pr with ⟨p', msgs'⟩
          rw [hr] at h
          simp only [Except.ok.injEq, Prod.mk.injEq] at h
          have := ih _ p' msgs' hr t ht.2
          rw [← h.1, this, if_neg ht.1]
    · exact ih prev p msgs h t ht.2

/-- C8: after the diff step of a polling cycle the stored snapshot for the
token equals the newly observed status, whether or not the observation counted
as a change — the changed branch writes it, and in the unchanged branch the
stored value already equals it — so the cache-holds-latest-observation
invariant is preserved even though the code writes only inside the changed
branch.  Stated both for the single diff step and for the whole cycle loop. -/
theorem cache_holds_latest_observation :
    (∀ (prev : Option Status) (st : Status), (diffStep prev st).1 = some st)
    ∧ (∀ (prev : String → Option Status) (tok : String) (o : TokenObs)
        (rest : List (String × TokenObs)) (p : String → Option Status) (msgs : List String),
        processTokens prev ((tok, o) :: rest) = Except.ok (p, msgs) →
        tok ∉ rest.map Prod.fst →
        p tok = some (mkStatus o)) := by
  constructor
  · intro prev st
    unfold diffStep
    split
    · rfl
    · next hne => simpa using hne
  · intro prev tok o rest p msgs h ht
    simp only [processTokens] at h
    split at h
    · cases hf : format_status tok (mkStatus o) with
      | error e => rw [hf] at h; exact absurd h (by simp)
      | ok msg =>
        rw [hf] at h
        cases hr : processTokens (fun t => if t = tok then some (mkStatus o) else prev t) rest with
        | error e => rw [hr] at h; exact absurd h (by simp)
        | ok pr =>
          rcases pr with ⟨p', msgs'⟩
          rw [hr] at h
          simp only [Except.ok.injEq, Prod.mk.injEq] at h
          have := processTokens_untouched rest _ p' msgs' hr tok ht
          rw [← h.1, this, if_pos rfl]
    · next heq =>
      have hst : prev tok = some (mkStatus o) := by
        by_contra hc
        exact heq hc
      have := processTokens_untouched rest prev p msgs h tok ht
      rw [this, hst]

/-- C8 witness: one cycle over a single fresh token stores its observed
status in the snapshot map. -/
theorem cache_holds_latest_observation_witness :
    (fun t => if t = "tok_aaa111111" then some (mkStatus ⟨some ⟨some "up"⟩, some ⟨some 5⟩⟩)
              else (none : Option Status)) "tok_aaa111111"
      = some (mkStatus ⟨some ⟨some "up"⟩, some ⟨some 5⟩⟩) :=
  cache_holds_latest_observation.2 (fun _ => none) "tok_aaa111111"
    ⟨some ⟨some "up"⟩, some ⟨some 5⟩⟩ [] _ _ rfl (by simp)

/-- C10: a genuine queue position of the integer 0 renders exactly like a
missing position: Python's `status['position'] or 'Unknown'` treats the falsy
`0` like `None`, so the formatted notification displays `Unknown` in both
cases and the two messages are indistinguishable to the owner; an unavailable
position endpoint indeed yields a `None` position field in the status dict. -/
theorem position_zero_displays_unknown (token : String) (p : String) (pp : PingPayload) :
    format_status token { ping := some p, position := some 0 }
      = format_status token { ping := some p, position := none }
    ∧ positionDisplay (some 0) = "Unknown"
    ∧ positionDisplay none = "Unknown"
    ∧ (mkStatus { ping := some pp, pos := none }).position = none
    ∧ (mkStatus { ping := some pp, pos := some ⟨some 0⟩ }).position = some 0 :=
  ⟨rfl, rfl, rfl, rfl, rfl⟩

/-- `List.eraseIdx` keeps the elements before the index and after it, in order. -/
theorem eraseIdx_take_drop :
    ∀ (l : List String) (n : Nat), l.eraseIdx n = l.take n ++ l.drop (n + 1) := by
  intro l
  induction l with
  | nil => intro n; cases n <;> rfl
  | cons a as ih =>
    intro n
    cases n with
    | zero => rfl
    | succ m => simpa [List.eraseIdx] using ih m

/-- C7: removing a token at a valid index `0 ≤ index < len` shrinks the
owner's list by exactly one, returns the token that sat at that index, and
keeps every other token in its original relative order; an invalid index
reports an invalid selection (`none`) and leaves the list byte-for-byte
unchanged. -/
theorem handle_token_actions_remove_spec (tokens : List String) (index : Int) :
    ((0 ≤ index ∧ index < (tokens.length : Int)) →
      (handle_token_actions_remove tokens index).1.length + 1 = tokens.length
      ∧ (handle_token_actions_remove tokens index).2 = tokens.get? index.toNat
      ∧ (tokens.get? index.toNat).isSome = true
      ∧ (handle_token_actions_remove tokens index).1
          = tokens.take index.toNat ++ tokens.drop (index.toNat + 1))
    ∧ (¬(0 ≤ index ∧ index < (tokens.length : Int)) →
      handle_token_actions_remove tokens index = (tokens, none)) := by
  constructor
  · intro h
    have hlt : index.toNat < tokens.length := by omega
    have hsome : (tokens.get? index.toNat).isSome = true := by
      rw [Option.isSome_iff_ne_none]
      intro hn
      rw [List.get?_eq_none] at hn
      omega
    unfold handle_token_actions_remove
    rw [if_pos h]
    refine ⟨?_, rfl, hsome, eraseIdx_take_drop tokens index.toNat⟩
    show (tokens.eraseIdx index.toNat).length + 1 = tokens.length
    rw [eraseIdx_take_drop tokens index.toNat]
    simp only [List.length_append, List.length_take, List.length_drop]
    omega
  · intro h
    unfold handle_token_actions_remove
    rw [if_neg h]

/-- C7 witness: removing index 1 from a three-token list drops exactly the
middle token and keeps the rest in order; index 5 and index -1 are rejected
with the list unchanged. -/
theorem handle_token_actions_remove_spec_witness :
    ((handle_token_actions_remove ["tok_aaa111111", "tok_bbb222222", "tok_ccc333333"] 1).1.length
        + 1 = 3
      ∧ (handle_token_actions_remove ["tok_aaa111111", "tok_bbb222222", "tok_ccc333333"] 1).2
        = some "tok_bbb222222"
      ∧ (handle_token_actions_remove ["tok_aaa111111", "tok_bbb222222", "tok_ccc333333"] 1).1
        = ["tok_aaa111111", "tok_ccc333333"])
    ∧ handle_token_actions_remove ["tok_aaa111111", "tok_bbb222222", "tok_ccc333333"] 5
      = (["tok_aaa111111", "tok_bbb222222", "tok_ccc333333"], none)
    ∧ handle_token_actions_remove ["tok_aaa111111", "tok_bbb222222", "tok_ccc333333"] (-1)
      = (["tok_aaa111111", "tok_bbb222222", "tok_ccc333333"], none) := by
  have hv := (handle_token_actions_remove_spec
    ["tok_aaa111111", "tok_bbb222222", "tok_ccc333333"] 1).1 (by constructor <;> decide)
  refine ⟨⟨hv.1, ?_, ?_⟩, ?_, ?_⟩
  · rw [hv.2.1]; rfl
  · rw [hv.2.2.2]; rfl
  · exact (handle_token_actions_remove_spec _ 5).2 (by decide)
  · exact (handle_token_actions_remove_spec _ (-1)).2 (by decide)

/-- C2: if the owner already has a running (not done) task, `start_monitoring`
reports that monitoring is already running and changes nothing — no worker is
spawned; consequently a second `start_monitoring` immediately after a first
one, with no intervening stop, always reports `alreadyRunning` and leaves the
state exactly as the first call left it, so exactly one worker set exists (the
per-owner map holds at most one task handle per owner by construction). -/
theorem start_monitoring_at_most_one (s : BotState) (owner : Owner) :
    ((∃ t, s.monitoring_tasks owner = some t ∧ task_done t = false) →
      start_monitoring s owner = (s, StartResult.alreadyRunning))
    ∧ start_monitoring (start_monitoring s owner).1 owner
      = ((start_monitoring s owner).1, StartResult.alreadyRunning) := by
  constructor
  · rintro ⟨t, ht, hdone⟩
    unfold start_monitoring
    rw [ht]
    simp [Option.any, hdone]
  · rcases hm : s.monitoring_tasks owner with _ | t
    · simp [start_monitoring, Option.any, task_done, freshTask, hm]
    · rcases hd : t.finished with _ | _
      · simp [start_monitoring, Option.any, task_done, hm, hd]
      · simp [start_monitoring, Option.any, task_done, freshTask, hm, hd]

/-- C2 witness: an owner with a running worker gets `alreadyRunning` and an
unchanged state; starting twice from an idle owner leaves the second call a
no-op reporting `alreadyRunning`. -/
theorem start_monitoring_at_most_one_witness :
    start_monitoring
      { user_tokens := fun _ => ["tok_aaa111111"],
        monitoring_tasks := fun o => if o = 1 then some ⟨false, false⟩ else none } 1
      = ({ user_tokens := fun _ => ["tok_aaa111111"],
           monitoring_tasks := fun o => if o = 1 then some ⟨false, false⟩ else none },
         StartResult.alreadyRunning)
    ∧ start_monitoring
        (start_monitoring { user_tokens := fun _ => [], monitoring_tasks := fun _ => none } 1).1 1
      = ((start_monitoring { user_tokens := fun _ => [], monitoring_tasks := fun _ => none } 1).1,
         StartResult.alreadyRunning) :=
  ⟨(start_monitoring_at_most_one _ 1).1 ⟨⟨false, false⟩, rfl, rfl⟩,
   (start_monitoring_at_most_one { user_tokens := fun _ => [], monitoring_tasks := fun _ => none }
      1).2⟩

/-- Unfolding of one iteration of the worker loop. -/
theorem monitor_tokens_run_cons (cancelAt : Option Nat) (prev : String → Option Status)
    (cyc : List (String × TokenObs)) (rest : List (List (String × TokenObs))) :
    monitor_tokens_run cancelAt prev (cyc :: rest)
      = if cancelAt = some 0 then ([], ExitStatus.cancelled)
        else match processTokens prev cyc with
          | Except.error _ => ([SentMsg.crashNotice], ExitStatus.crashed)
          | Except.ok (p, updates) =>
              (updatesCons updates (monitor_tokens_run (decCancel cancelAt) p rest).1,
               (monitor_tokens_run (decCancel cancelAt) p rest).2) := by
  simp only [monitor_tokens_run]

/-- Cancellation delivered at the start of cycle `k` makes the worker produce
exactly the messages of the first `k` cycles and exit cleanly: nothing past
the delivery point is polled, stored, or notified. -/
theorem monitor_cancel_truncates :
    ∀ (cycles : List (List (String × TokenObs))) (k : Nat) (prev : String → Option Status),
      k < cycles.length →
      (monitor_tokens_run none prev (cycles.take k)).2 = ExitStatus.running →
      monitor_tokens_run (some k) prev cycles
        = ((monitor_tokens_run none prev (cycles.take k)).1, ExitStatus.cancelled) := by
  intro cycles
  induction cycles with
  | nil => intro k prev hk _; simp at hk
  | cons cyc rest ih =>
    intro k prev hk hrun
    cases k with
    | zero => simp [monitor_tokens_run]
    | succ k' =>
      have hne1 : (some (k' + 1) : Option Nat) ≠ some 0 := by simp
      have hne2 : (none : Option Nat) ≠ some 0 := by simp
      rw [List.take_succ_cons] at hrun ⊢
      rw [monitor_tokens_run_cons, if_neg hne2] at hrun
      rw [monitor_tokens_run_cons, if_neg hne1, monitor_tokens_run_cons, if_neg hne2]
      cases hp : processTokens prev cyc with
      | error e =>
        rw [hp] at hrun
        dsimp only at hrun
        exact absurd hrun (by simp)
      | ok pr =>
        rcases pr with ⟨p, updates⟩
        rw [hp] at hrun
        dsimp only at hrun ⊢
        simp only [decCancel, Nat.add_sub_cancel] at hrun ⊢
        have hk' : k' < rest.length := by simpa using Nat.lt_of_succ_lt_succ hk
        rw [ih k' p hk' hrun]

/-- C1 counterexample: an owner with a live (unfinished) worker calls stop.
`stop_monitoring` contains no `await`: it requests cancellation and deletes
the owner's map entry in the same synchronous step, so at the moment the
session object is removed the worker it owned is still not terminated
(`finished = false`) — refuting "the workers are all terminated before the
session object is removed". -/
theorem stop_removes_session_before_worker_terminates :
    (stop_monitoring
      { user_tokens := fun _ => ["tok_aaa111111"],
        monitoring_tasks := fun o => if o = 1 then some ⟨false, false⟩ else none } 1).2
      = (StopResult.stopped, some { cancelled := true, finished := false })
    ∧ (stop_monitoring
        { user_tokens := fun _ => ["tok_aaa111111"],
          monitoring_tasks := fun o => if o = 1 then some ⟨false, false⟩ else none }
        1).1.monitoring_tasks 1 = none
    ∧ ((stop_monitoring
        { user_tokens := fun _ => ["tok_aaa111111"],
          monitoring_tasks := fun o => if o = 1 then some ⟨false, false⟩ else none }
        1).2.2.map task_done) = some false := by
  refine ⟨rfl, ?_, rfl⟩
  show (if (1 : Owner) = 1 then none
        else some (⟨false, false⟩ : TaskState)) = none
  rw [if_pos rfl]

/-- C1 (amended): `stop_monitoring` on an owner holding a session signals
cancellation to its worker and removes the session from the supervisor's map
immediately, without waiting for the worker to terminate; once the
cancellation is delivered at the worker's next suspension point the worker
exits cleanly and performs no further polls, snapshot updates, or
notifications — its output is exactly that of the cycles completed before
delivery. -/
theorem stop_cancels_and_removes_immediately :
    (∀ (s : BotState) (owner : Owner) (t : TaskState),
      s.monitoring_tasks owner = some t →
      stop_monitoring s owner
        = ({ s with monitoring_tasks := fun o => if o = owner then none
                                                 else s.monitoring_tasks o },
           StopResult.stopped, some { t with cancelled := true }))
    ∧ (∀ (cycles : List (List (String × TokenObs))) (k : Nat) (prev : String → Option Status),
        k < cycles.length →
        (monitor_tokens_run none prev (cycles.take k)).2 = ExitStatus.running →
        monitor_tokens_run (some k) prev cycles
          = ((monitor_tokens_run none prev (cycles.take k)).1, ExitStatus.cancelled)) :=
  ⟨fun s owner t ht => by unfold stop_monitoring; rw [ht], monitor_cancel_truncates⟩

/-- C1 amended witness: stopping an owner with a live worker yields `stopped`
and the cancel-requested, still-unfinished task; a worker cancelled at the
start of its second cycle emits only the first cycle's messages and exits
cleanly. -/
theorem stop_cancels_and_removes_immediately_witness :
    stop_monitoring
      { user_tokens := fun _ => [],
        monitoring_tasks := fun o => if o = 1 then some ⟨false, false⟩ else none } 1
      = ({ user_tokens := fun _ => [],
           monitoring_tasks := fun o => if o = 1 then none
             else (fun o' => if o' = 1 then some ⟨false, false⟩ else none) o },
         StopResult.stopped, some { cancelled := true, finished := false })
    ∧ monitor_tokens_run (some 1) (fun _ => none) [[], []]
      = ((monitor_tokens_run none (fun _ => none) ([[], []].take 1)).1, ExitStatus.cancelled) :=
  ⟨stop_cancels_and_removes_immediately.1 _ 1 ⟨false, false⟩ rfl,
   stop_cancels_and_removes_immediately.2 [[], []] 1 (fun _ => none) (by decide) rfl⟩

/-- The per-cycle send adds no crash notice. -/
theorem crashCount_updatesCons (updates : List String) (msgs : List SentMsg) :
    crashCount (updatesCons updates msgs) = crashCount msgs := by
  unfold updatesCons
  split
  · rfl
  · rfl

/-- The per-cycle send does not change the last message of a nonempty tail. -/
theorem lastMsg?_updatesCons (updates : List String) (msgs : List SentMsg) (h : msgs ≠ []) :
    lastMsg? (updatesCons updates msgs) = lastMsg? msgs := by
  unfold updatesCons
  split
  · rfl
  · cases msgs with
    | nil => exact absurd rfl h
    | cons m rest => rfl

/-- C6: the worker sends the crash notice exactly once, as its final message,
precisely when it terminates with an unhandled non-cancellation exception
(`except Exception`, line 262-264); in every other termination — still
looping, or `CancelledError` caught at line 260 — the crash notice is never
sent, and a cancellation delivered before a cycle terminates the worker
cleanly with no notification at all; the worker is never restarted (its run
ends at the crash). -/
theorem crash_notice_iff_fatal (cancelAt : Option Nat) (prev : String → Option Status)
    (cycles : List (List (String × TokenObs))) :
    crashCount (monitor_tokens_run cancelAt prev cycles).1
      = (if (monitor_tokens_run cancelAt prev cycles).2 = ExitStatus.crashed then 1 else 0)
    ∧ ((monitor_tokens_run cancelAt prev cycles).2 = ExitStatus.crashed →
        lastMsg? (monitor_tokens_run cancelAt prev cycles).1 = some SentMsg.crashNotice)
    ∧ (cycles ≠ [] →
        monitor_tokens_run (some 0) prev cycles = ([], ExitStatus.cancelled)) := by
  induction cycles generalizing cancelAt prev with
  | nil => simp [monitor_tokens_run, crashCount]
  | cons cyc rest ih =>
    have h3 : monitor_tokens_run (some 0) prev (cyc :: rest) = ([], ExitStatus.cancelled) := by
      rw [monitor_tokens_run_cons, if_pos rfl]
    by_cases h0 : cancelAt = some 0
    · subst h0
      refine ⟨?_, ?_, fun _ => h3⟩
      · rw [h3]
        simp [crashCount]
      · rw [h3]
        intro hc
        simp at hc
    · have hrw : monitor_tokens_run cancelAt prev (cyc :: rest)
          = match processTokens prev cyc with
            | Except.error _ => ([SentMsg.crashNotice], ExitStatus.crashed)
            | Except.ok (p, updates) =>
                (updatesCons updates (monitor_tokens_run (decCancel cancelAt) p rest).1,
                 (monitor_tokens_run (decCancel cancelAt) p rest).2) := by
        rw [monitor_tokens_run_cons, if_neg h0]
      cases hp : processTokens prev cyc with
      | error e =>
        rw [hp] at hrw
        refine ⟨?_, ?_, fun _ => h3⟩
        · rw [hrw]
          simp [crashCount]
        · intro _
          rw [hrw]
          rfl
      | ok pr =>
        rcases pr with ⟨p, updates⟩
        rw [hp] at hrw
        have ihR := ih (decCancel cancelAt) p
        refine ⟨?_, ?_, fun _ => h3⟩
        · rw [hrw]
          dsimp only
          rw [crashCount_updatesCons]
          exact ihR.1
        · rw [hrw]
          dsimp only
          intro hc
          have hlast := ihR.2.1 hc
          have hne : (monitor_tokens_run (decCancel cancelAt) p rest).1 ≠ [] := by
            intro hnil
            rw [hnil] at hlast
            simp [lastMsg?] at hlast
          rw [lastMsg?_updatesCons _ _ hne]
          exact hlast

/-- C6 witness: a ping payload lacking its `"status"` field makes
`format_status` raise, so the run ends `crashed` with the crash notice as its
single, final message; the same input cancelled before its first cycle sends
nothing and exits `cancelled`. -/
theorem crash_notice_iff_fatal_witness :
    crashCount (monitor_tokens_run none (fun _ => none)
        [[("tok_aaa111111", ⟨some ⟨none⟩, none⟩)]]).1 = 1
    ∧ lastMsg? (monitor_tokens_run none (fun _ => none)
        [[("tok_aaa111111", ⟨some ⟨none⟩, none⟩)]]).1 = some SentMsg.crashNotice
    ∧ monitor_tokens_run (some 0) (fun _ => none)
        [[("tok_aaa111111", ⟨some ⟨none⟩, none⟩)]] = ([], ExitStatus.cancelled) := by
  have h := crash_notice_iff_fatal none (fun _ => none)
    [[("tok_aaa111111", ⟨some ⟨none⟩, none⟩)]]
  have hex : (monitor_tokens_run none (fun _ => none)
      [[("tok_aaa111111", ⟨some ⟨none⟩, none⟩)]]).2 = ExitStatus.crashed := by decide
  refine ⟨?_, h.2.1 hex, h.2.2 (by simp)⟩
  rw [h.1, if_pos hex]

/-- C9 counterexample: take an owner whose worker has already finished (its
session has left the `Running` state — the spec's `Idle` after total worker
failure) while its task handle is still recorded.  The claim demands that
`stop_monitoring` report `NotRunning` and mutate nothing, but the code only
tests dictionary membership: it reports `stopped` and deletes the entry. -/
theorem stop_monitoring_finished_session_counterexample :
    ({ user_tokens := fun _ => [], monitoring_tasks := fun o =>
        if o = 1 then some ⟨false, true⟩ else none } : BotState).monitoring_tasks 1
      = some { cancelled := false, finished := true }
    ∧ (stop_monitoring
        { user_tokens := fun _ => [], monitoring_tasks := fun o =>
            if o = 1 then some ⟨false, true⟩ else none } 1).2.1 = StopResult.stopped
    ∧ (stop_monitoring
        { user_tokens := fun _ => [], monitoring_tasks := fun o =>
            if o = 1 then some ⟨false, true⟩ else none } 1).1.monitoring_tasks 1 = none
    ∧ StopResult.stopped ≠ StopResult.notRunning := by
  refine ⟨rfl, rfl, ?_, by simp⟩
  show (if (1 : Owner) = 1 then none else some (⟨false, true⟩ : TaskState)) = none
  rw [if_pos rfl]

/-- C9 (amended): for every owner with no entry in the supervisor's task map,
`stop_monitoring` reports `notRunning` and mutates no state — the token store,
the task map, and all other owners' sessions are returned unchanged.  (An
owner whose worker already finished but whose task handle is still recorded is
instead treated as stoppable: the stale entry is deleted and `stopped` is
reported.) -/
theorem stop_monitoring_no_session (s : BotState) (owner : Owner)
    (h : s.monitoring_tasks owner = none) :
    stop_monitoring s owner = (s, StopResult.notRunning, none) := by
  unfold stop_monitoring
  rw [h]

/-- C9 amended witness: stopping an owner that never started returns the state
untouched and reports `notRunning`. -/
theorem stop_monitoring_no_session_witness :
    stop_monitoring
      { user_tokens := fun _ => ["tok_aaa111111"], monitoring_tasks := fun _ => none } 1
      = ({ user_tokens := fun _ => ["tok_aaa111111"], monitoring_tasks := fun _ => none },
         StopResult.notRunning, none) :=
  stop_monitoring_no_session _ 1 rfl
